import Mathlib

/-!
Verification of the TRK track writer (`pytrack/track.py`).

The source serializes a `Track` (a name plus a list of `(x, y)` float pairs)
to a binary file: a 128-byte header (magic `TRKF`, two uint32 LE version
fields, the UTF-8 name truncated to 64 bytes, zero padding), a uint16 LE
node count, and 8 bytes per node (`struct.pack('<ff', x, y)`).

Modelling choices:
* A byte is a `Nat` (the values produced are all `< 256`); a byte stream is
  a `List Nat`.
* Each node coordinate is represented by the 32-bit IEEE-754 single-precision
  bit pattern that `struct.pack` serializes; `struct.pack('<ff', x, y)` then
  writes the 4 little-endian bytes of each pattern, x first.
* The destination file is `Option (List Nat)`: `none` means the file does not
  exist, `some bs` means it holds bytes `bs`.  `open(filename, 'wb')` followed
  by the sequence of `f.write` calls replaces the content with the
  concatenation of everything written.
-/

namespace PyTrack

/-- `MAX_NODES = 65535` from `track.py`: the maximum number of nodes that can
be stored in a `.trk` file. -/
def MAX_NODES : Nat := 65535

/-- One `(x, y)` node.  Each field is the 32-bit IEEE-754 single-precision
bit pattern of the corresponding Python float (`struct.pack('<f', v)` writes
exactly the 4 little-endian bytes of this pattern). -/
structure Node where
  x : Nat
  y : Nat
deriving DecidableEq, Repr

/-- The `Track` class of `track.py`: a name and an ordered node list. -/
structure Track where
  name : String
  nodes : List Node
deriving DecidableEq, Repr

/-- Python `n.to_bytes(w, byteorder='little', signed=False)`: the `w`
little-endian bytes of `n`, least significant first. -/
def toBytesLE : Nat → Nat → List Nat
  | 0, _ => []
  | w + 1, n => n % 256 :: toBytesLE w (n / 256)

/-- Little-endian decoding of a byte list; used only to state the round-trip
claims about the produced bytes. -/
def fromBytesLE : List Nat → Nat
  | [] => 0
  | b :: bs => b + 256 * fromBytesLE bs

/-- Python slice assignment `buf[i:i+len(xs)] = xs` on a buffer, for the
in-range case used by the source (the slice lies inside the buffer). -/
def spliceAt (buf : List Nat) (i : Nat) (xs : List Nat) : List Nat :=
  buf.take i ++ xs ++ buf.drop (i + xs.length)

/-- `self.name.encode('utf-8')[:64]` from `track.py`: the UTF-8 encoding of
the name, truncated on a raw byte boundary to at most 64 bytes. -/
def Track.nameBytes (t : Track) : List Nat :=
  ((t.name.toUTF8.data.toList.map UInt8.toNat)).take 64

/-- `b'TRKF'`: the ASCII bytes of the magic string. -/
def magicTRKF : List Nat := [0x54, 0x52, 0x4B, 0x46]

/-- The 128-byte header built by `write_trk`: a zero-initialized
`bytearray(128)` with the magic spliced at 0, the uint32 LE major version 0
at 4, the uint32 LE minor version 1 at 8, and the truncated name at 12. -/
def Track.header (t : Track) : List Nat :=
  spliceAt
    (spliceAt
      (spliceAt
        (spliceAt (List.replicate 128 0) 0 magicTRKF)
        4 (toBytesLE 4 0))
      8 (toBytesLE 4 1))
    12 t.nameBytes

/-- `struct.pack('<ff', x, y)`: 4 little-endian bytes of the bit pattern of
`x`, then 4 of `y`. -/
def Node.pack (n : Node) : List Nat :=
  toBytesLE 4 n.x ++ toBytesLE 4 n.y

/-- Everything `write_trk` writes after the header: the node count as a
uint16 LE, then each node in list order. -/
def Track.body (t : Track) : List Nat :=
  toBytesLE 2 t.nodes.length ++ t.nodes.flatMap Node.pack

/-- The full byte stream a successful `write_trk` leaves in the file. -/
def Track.trkBytes (t : Track) : List Nat :=
  t.header ++ t.body

/-- The error of `write_trk`: the `ValueError` raised when the node count
exceeds `MAX_NODES` (the spec calls it `NodeCountExceeded`). -/
inductive TrkError where
  | nodeCountExceeded
deriving DecidableEq, Repr

/-- `Track.write_trk(self, filename)`.  The destination file is passed in as
`Option (List Nat)` and the post state is returned together with the result.
The guard `len(self.nodes) > MAX_NODES` raises before `open` is reached, so
on the error branch the destination is untouched; otherwise the file is
opened for writing (created or truncated) and ends up holding exactly the
concatenation of the header, the count bytes and the node bytes. -/
def Track.write_trk (t : Track) (dest : Option (List Nat)) :
    Except TrkError Unit × Option (List Nat) :=
  if t.nodes.length > MAX_NODES then
    (.error .nodeCountExceeded, dest)
  else
    (.ok (), some t.trkBytes)

/-- The full method call `track.write_trk(filename)` viewed from the caller:
it also returns the post state of `self`.  The source method body contains no
assignment to `self.name` or `self.nodes`, so the embedded call returns the
receiver unchanged on both branches. -/
def Track.write_trk_call (t : Track) (dest : Option (List Nat)) :
    Track × Except TrkError Unit × Option (List Nat) :=
  (t, t.write_trk dest)

/-! ### Helper lemmas -/

theorem toBytesLE_length (w n : Nat) : (toBytesLE w n).length = w := by
  induction w generalizing n with
  | zero => rfl
  | succ w ih => simp [toBytesLE, ih]

theorem fromBytesLE_toBytesLE (w n : Nat) (h : n < 256 ^ w) :
    fromBytesLE (toBytesLE w n) = n := by
  induction w generalizing n with
  | zero =>
    simp only [Nat.pow_zero, Nat.lt_one_iff] at h
    simp [toBytesLE, fromBytesLE, h]
  | succ w ih =>
    have hdiv : n / 256 < 256 ^ w := by
      rw [Nat.div_lt_iff_lt_mul (by norm_num)]
      calc n < 256 ^ (w + 1) := h
        _ = 256 ^ w * 256 := by ring
    simp only [toBytesLE, fromBytesLE, ih (n / 256) hdiv]
    omega

theorem Node.pack_length (n : Node) : n.pack.length = 8 := by
  simp [Node.pack, toBytesLE_length]

theorem flatMap_pack_length (ns : List Node) :
    (ns.flatMap Node.pack).length = 8 * ns.length := by
  induction ns with
  | nil => rfl
  | cons n ns ih =>
    simp only [List.flatMap_cons, List.length_append, ih, Node.pack_length,
      List.length_cons]
    ring

theorem Track.nameBytes_length_le (t : Track) : t.nameBytes.length ≤ 64 :=
  List.length_take_le 64 _

theorem Track.header_eq (t : Track) :
    t.header = [0x54, 0x52, 0x4B, 0x46, 0, 0, 0, 0, 1, 0, 0, 0] ++ t.nameBytes ++
      List.replicate (116 - t.nameBytes.length) 0 := by
  have h1 : spliceAt (spliceAt (spliceAt (List.replicate 128 0) 0 magicTRKF)
        4 (toBytesLE 4 0)) 8 (toBytesLE 4 1)
      = [0x54, 0x52, 0x4B, 0x46, 0, 0, 0, 0, 1, 0, 0, 0] ++ List.replicate 116 0 := by
    decide
  rw [Track.header, h1, spliceAt,
    List.take_left'
      (show ([0x54, 0x52, 0x4B, 0x46, 0, 0, 0, 0, 1, 0, 0, 0] : List Nat).length = 12 from rfl),
    ← List.drop_drop,
    List.drop_left'
      (show ([0x54, 0x52, 0x4B, 0x46, 0, 0, 0, 0, 1, 0, 0, 0] : List Nat).length = 12 from rfl),
    List.drop_replicate, List.append_assoc]

theorem Track.header_length (t : Track) : t.header.length = 128 := by
  have h := t.nameBytes_length_le
  rw [t.header_eq]
  simp only [List.length_append, List.length_cons, List.length_nil,
    List.length_replicate]
  omega

theorem Track.body_length (t : Track) : t.body.length = 2 + 8 * t.nodes.length := by
  rw [Track.body, List.length_append, toBytesLE_length, flatMap_pack_length]

theorem Track.trkBytes_length (t : Track) :
    t.trkBytes.length = 130 + 8 * t.nodes.length := by
  simp only [Track.trkBytes, List.length_append, t.header_length, t.body_length]
  omega

theorem Track.trkBytes_drop_header (t : Track) : t.trkBytes.drop 128 = t.body := by
  rw [Track.trkBytes, List.drop_left' t.header_length]

theorem Track.trkBytes_take_header (t : Track) : t.trkBytes.take 128 = t.header := by
  rw [Track.trkBytes, List.take_left' t.header_length]

theorem Track.write_trk_ok (t : Track) (dest : Option (List Nat))
    (h : t.nodes.length ≤ 65535) :
    t.write_trk dest = (.ok (), some t.trkBytes) := by
  rw [Track.write_trk, if_neg]
  simp only [MAX_NODES, gt_iff_lt, not_lt]
  exact h

/-! ### Claim theorems -/

/-- C1: for every `Track` whose node count `N` is at most 65535, `write_trk`
produces an output of exactly `130 + 8 * N` bytes (128-byte header, 2-byte
count, 8 bytes per node), regardless of the name's length. -/
theorem write_trk_output_size (t : Track) (dest : Option (List Nat))
    (h : t.nodes.length ≤ 65535) :
    (t.write_trk dest).2 = some t.trkBytes ∧
    t.trkBytes.length = 130 + 8 * t.nodes.length := by
  rw [t.write_trk_ok dest h]
  exact ⟨rfl, t.trkBytes_length⟩

/-- Witness for C1 at a concrete one-node track. -/
theorem write_trk_output_size_witness :
    (Track.mk "A" [⟨0, 0⟩]).nodes.length ≤ 65535 ∧
    (((Track.mk "A" [⟨0, 0⟩]).write_trk none).2 =
        some (Track.mk "A" [⟨0, 0⟩]).trkBytes ∧
      (Track.mk "A" [⟨0, 0⟩]).trkBytes.length =
        130 + 8 * (Track.mk "A" [⟨0, 0⟩]).nodes.length) :=
  ⟨by decide, write_trk_output_size (Track.mk "A" [⟨0, 0⟩]) none (by decide)⟩

/-- C2: if a `Track` has more than 65535 nodes, `write_trk` fails with the
node-count-exceeded error and the destination is untouched, whatever state it
started in (absent stays absent, existing content stays as it was). -/
theorem write_trk_node_count_exceeded (t : Track) (dest : Option (List Nat))
    (h : t.nodes.length > 65535) :
    t.write_trk dest = (.error .nodeCountExceeded, dest) := by
  rw [Track.write_trk, if_pos]
  exact h

/-- Witness for C2 at a concrete 65536-node track and an absent destination. -/
theorem write_trk_node_count_exceeded_witness :
    (Track.mk "" (List.replicate 65536 ⟨0, 0⟩)).nodes.length > 65535 ∧
    (Track.mk "" (List.replicate 65536 ⟨0, 0⟩)).write_trk none =
      (.error .nodeCountExceeded, none) := by
  have h : (Track.mk "" (List.replicate 65536 (Node.mk 0 0))).nodes.length > 65535 := by
    show (List.replicate 65536 (Node.mk 0 0)).length > 65535
    rw [List.length_replicate]
    omega
  exact ⟨h, write_trk_node_count_exceeded _ none h⟩

/-- C3: for every `Track` with at most 65535 nodes, the output after the
128-byte header is the node count `len(nodes)` as a uint16 LE, followed by
the nodes in list order, each as two 32-bit LE words, `x` first, `y` second
(the words being the IEEE-754 single-precision patterns `struct.pack`
serializes); the count bytes decode back to `len(nodes)`. -/
theorem write_trk_payload_layout (t : Track) (dest : Option (List Nat))
    (h : t.nodes.length ≤ 65535) :
    (t.write_trk dest).2 = some t.trkBytes ∧
    t.trkBytes.drop 128 =
      toBytesLE 2 t.nodes.length ++
        t.nodes.flatMap (fun n => toBytesLE 4 n.x ++ toBytesLE 4 n.y) ∧
    fromBytesLE (toBytesLE 2 t.nodes.length) = t.nodes.length := by
  refine ⟨by rw [t.write_trk_ok dest h], ?_, ?_⟩
  · rw [t.trkBytes_drop_header, Track.body]
    rfl
  · refine fromBytesLE_toBytesLE 2 _ ?_
    have h2 : (256 : Nat) ^ 2 = 65536 := by norm_num
    omega

/-- Witness for C3 at a concrete two-node track. -/
theorem write_trk_payload_layout_witness :
    (Track.mk "w" [⟨1, 2⟩, ⟨3, 4⟩]).nodes.length ≤ 65535 ∧
    (((Track.mk "w" [⟨1, 2⟩, ⟨3, 4⟩]).write_trk none).2 =
        some (Track.mk "w" [⟨1, 2⟩, ⟨3, 4⟩]).trkBytes ∧
      (Track.mk "w" [⟨1, 2⟩, ⟨3, 4⟩]).trkBytes.drop 128 =
        toBytesLE 2 (Track.mk "w" [⟨1, 2⟩, ⟨3, 4⟩]).nodes.length ++
          (Track.mk "w" [⟨1, 2⟩, ⟨3, 4⟩]).nodes.flatMap
            (fun n => toBytesLE 4 n.x ++ toBytesLE 4 n.y) ∧
      fromBytesLE (toBytesLE 2 (Track.mk "w" [⟨1, 2⟩, ⟨3, 4⟩]).nodes.length) =
        (Track.mk "w" [⟨1, 2⟩, ⟨3, 4⟩]).nodes.length) :=
  ⟨by decide, write_trk_payload_layout (Track.mk "w" [⟨1, 2⟩, ⟨3, 4⟩]) none (by decide)⟩

/-- C4: in every header, bytes 12 onward hold the UTF-8 encoding of the name
truncated on a raw byte boundary to at most 64 bytes, and everything from the
end of the truncated name through byte 127 is zero (so a long name occupies
exactly bytes 12–75 and bytes 76–127 are zero, and a short name of `k` bytes
leaves bytes `12+k`–127 zero). -/
theorem header_name_layout (t : Track) :
    (t.header.drop 12).take t.nameBytes.length = t.nameBytes ∧
    t.nameBytes = (t.name.toUTF8.data.toList.map UInt8.toNat).take 64 ∧
    t.header.drop (12 + t.nameBytes.length) =
      List.replicate (116 - t.nameBytes.length) 0 := by
  have hd12 : t.header.drop 12 =
      t.nameBytes ++ List.replicate (116 - t.nameBytes.length) 0 := by
    rw [t.header_eq, List.append_assoc]
    exact List.drop_left'
      (show ([0x54, 0x52, 0x4B, 0x46, 0, 0, 0, 0, 1, 0, 0, 0] : List Nat).length = 12 from rfl)
  refine ⟨?_, rfl, ?_⟩
  · rw [hd12, List.take_left' rfl]
  · rw [← List.drop_drop, hd12, List.drop_left' rfl]

/-- C5: every produced output starts with the ASCII magic `TRKF`, bytes 4–7
decode as uint32 LE to major version 0, bytes 8–11 to minor version 1. -/
theorem header_magic_and_version (t : Track) (dest : Option (List Nat))
    (h : t.nodes.length ≤ 65535) :
    (t.write_trk dest).2 = some t.trkBytes ∧
    t.trkBytes.take 4 = [0x54, 0x52, 0x4B, 0x46] ∧
    fromBytesLE ((t.trkBytes.drop 4).take 4) = 0 ∧
    fromBytesLE ((t.trkBytes.drop 8).take 4) = 1 := by
  have he : t.trkBytes =
      [0x54, 0x52, 0x4B, 0x46, 0, 0, 0, 0, 1, 0, 0, 0] ++
        (t.nameBytes ++ (List.replicate (116 - t.nameBytes.length) 0 ++ t.body)) := by
    rw [Track.trkBytes, t.header_eq, List.append_assoc, List.append_assoc]
  refine ⟨by rw [t.write_trk_ok dest h], ?_, ?_, ?_⟩ <;> rw [he] <;> rfl

/-- Witness for C5 at a concrete track. -/
theorem header_magic_and_version_witness :
    (Track.mk "m" [⟨5, 6⟩]).nodes.length ≤ 65535 ∧
    (((Track.mk "m" [⟨5, 6⟩]).write_trk none).2 = some (Track.mk "m" [⟨5, 6⟩]).trkBytes ∧
      (Track.mk "m" [⟨5, 6⟩]).trkBytes.take 4 = [0x54, 0x52, 0x4B, 0x46] ∧
      fromBytesLE (((Track.mk "m" [⟨5, 6⟩]).trkBytes.drop 4).take 4) = 0 ∧
      fromBytesLE (((Track.mk "m" [⟨5, 6⟩]).trkBytes.drop 8).take 4) = 1) :=
  ⟨by decide, header_magic_and_version (Track.mk "m" [⟨5, 6⟩]) none (by decide)⟩

/-- The track of the concrete spec scenario: `Track("100 m Straight",
[(0, 0), (100, 0)])`.  `0x00000000` is the IEEE-754 single-precision pattern
of `0.0` and `0x42C80000` the pattern of `100.0`. -/
def straightTrack : Track :=
  { name := "100 m Straight"
    nodes := [⟨0x00000000, 0x00000000⟩, ⟨0x42C80000, 0x00000000⟩] }

/-- C6: writing `Track("100 m Straight", [(0,0), (100,0)])` to a fresh
destination produces exactly the 146-byte file of the spec: magic `TRKF`,
bytes 12–25 the UTF-8 name, zero padding through byte 75 (and the reserved
region through 127), count bytes `0x02 0x00` at 128–129, the float32 LE pair
`(0.0, 0.0)` at 130–137 and `(100.0, 0.0)` at 138–145. -/
theorem straight_track_file :
    (straightTrack.write_trk none).2 = some straightTrack.trkBytes ∧
    straightTrack.trkBytes.length = 146 ∧
    straightTrack.trkBytes.take 4 = [0x54, 0x52, 0x4B, 0x46] ∧
    (straightTrack.trkBytes.drop 12).take 14 =
      [0x31, 0x30, 0x30, 0x20, 0x6D, 0x20, 0x53, 0x74, 0x72, 0x61, 0x69, 0x67, 0x68, 0x74] ∧
    (straightTrack.trkBytes.drop 26).take 102 = List.replicate 102 0 ∧
    (straightTrack.trkBytes.drop 128).take 2 = [0x02, 0x00] ∧
    (straightTrack.trkBytes.drop 130).take 8 = [0, 0, 0, 0, 0, 0, 0, 0] ∧
    straightTrack.trkBytes.drop 138 = [0x00, 0x00, 0xC8, 0x42, 0, 0, 0, 0] := by
  set_option maxRecDepth 20000 in decide

/-- C7: for every `Track`, whatever the name length, the header is exactly
128 bytes: the first 128 bytes of the output are the header and the
node-count field starts exactly at offset 128. -/
theorem header_always_128 (t : Track) :
    t.header.length = 128 ∧
    t.trkBytes.take 128 = t.header ∧
    t.trkBytes.drop 128 = t.body :=
  ⟨t.header_length, t.trkBytes_take_header, t.trkBytes_drop_header⟩

/-- C8: `write_trk` succeeds for every node count up to and including 65535
(the check rejects only counts strictly greater), the 2-byte LE encoding of
an accepted count decodes back to the count (no overflow), and at the
boundary count 65535 the count bytes are `0xFF 0xFF`. -/
theorem write_trk_limit_boundary (t : Track) (dest : Option (List Nat))
    (h : t.nodes.length ≤ 65535) :
    (t.write_trk dest).1 = .ok () ∧
    (t.trkBytes.drop 128).take 2 = toBytesLE 2 t.nodes.length ∧
    fromBytesLE ((t.trkBytes.drop 128).take 2) = t.nodes.length ∧
    (t.nodes.length = 65535 → (t.trkBytes.drop 128).take 2 = [0xFF, 0xFF]) := by
  have htake : (t.trkBytes.drop 128).take 2 = toBytesLE 2 t.nodes.length := by
    rw [t.trkBytes_drop_header, Track.body, List.take_left' (toBytesLE_length 2 _)]
  refine ⟨by rw [t.write_trk_ok dest h], htake, ?_, ?_⟩
  · rw [htake]
    refine fromBytesLE_toBytesLE 2 _ ?_
    have h2 : (256 : Nat) ^ 2 = 65536 := by norm_num
    omega
  · intro h65
    rw [htake, h65]
    decide

/-- Witness for C8 at a concrete track with exactly 65535 nodes. -/
theorem write_trk_limit_boundary_witness :
    (Track.mk "b" (List.replicate 65535 ⟨0, 0⟩)).nodes.length ≤ 65535 ∧
    (((Track.mk "b" (List.replicate 65535 ⟨0, 0⟩)).write_trk none).1 = .ok () ∧
      ((Track.mk "b" (List.replicate 65535 ⟨0, 0⟩)).trkBytes.drop 128).take 2 =
        toBytesLE 2 (Track.mk "b" (List.replicate 65535 ⟨0, 0⟩)).nodes.length ∧
      fromBytesLE (((Track.mk "b" (List.replicate 65535 ⟨0, 0⟩)).trkBytes.drop 128).take 2) =
        (Track.mk "b" (List.replicate 65535 ⟨0, 0⟩)).nodes.length ∧
      ((Track.mk "b" (List.replicate 65535 ⟨0, 0⟩)).nodes.length = 65535 →
        ((Track.mk "b" (List.replicate 65535 ⟨0, 0⟩)).trkBytes.drop 128).take 2 =
          [0xFF, 0xFF])) := by
  have h : (Track.mk "b" (List.replicate 65535 (Node.mk 0 0))).nodes.length ≤ 65535 := by
    show (List.replicate 65535 (Node.mk 0 0)).length ≤ 65535
    rw [List.length_replicate]
  exact ⟨h, write_trk_limit_boundary _ none h⟩

/-- C9: `write_trk` is deterministic in the `Track` value: writing the same
track to two destinations leaves byte-identical contents in both. -/
theorem write_trk_deterministic (t : Track) (d₁ d₂ : Option (List Nat))
    (h : t.nodes.length ≤ 65535) :
    (t.write_trk d₁).2 = (t.write_trk d₂).2 ∧
    (t.write_trk d₁).2 = some t.trkBytes := by
  rw [t.write_trk_ok d₁ h, t.write_trk_ok d₂ h]
  exact ⟨rfl, rfl⟩

/-- Witness for C9 at a concrete track and two different initial destinations. -/
theorem write_trk_deterministic_witness :
    (Track.mk "d" [⟨7, 8⟩]).nodes.length ≤ 65535 ∧
    (((Track.mk "d" [⟨7, 8⟩]).write_trk none).2 =
        ((Track.mk "d" [⟨7, 8⟩]).write_trk (some [1, 2, 3])).2 ∧
      ((Track.mk "d" [⟨7, 8⟩]).write_trk none).2 = some (Track.mk "d" [⟨7, 8⟩]).trkBytes) :=
  ⟨by decide, write_trk_deterministic (Track.mk "d" [⟨7, 8⟩]) none (some [1, 2, 3]) (by decide)⟩

/-- C10: the method call does not mutate the receiver: after `write_trk`,
whether it succeeds or fails, `self.name` and `self.nodes` are unchanged (the
source body contains no assignment to either field). -/
theorem write_trk_preserves_receiver (t : Track) (dest : Option (List Nat)) :
    (t.write_trk_call dest).1.name = t.name ∧
    (t.write_trk_call dest).1.nodes = t.nodes :=
  ⟨rfl, rfl⟩

end PyTrack
